import Mathlib

/-!
Verification development for the inkless-db database core
(src-tauri/src/db/{mod,builder,schema,pool}.rs).

The Rust source is shallowly embedded: serde_json values become the
inductive `Json`, sea_query bind values become `SqlParam`, the SQL text
produced by the builder is modelled as a list of tokens (`SqlTok`) in
which every bind-parameter placeholder is the explicit token
`SqlTok.ph`; rendering the token list per dialect yields the SQL string
(`?` placeholders for SQLite/MySQL, numbered `$n` for Postgres), exactly
as sea-query-binder emits them.  Driver rows become `RawRow`, engine
catalogs become oracle structures returning `Except`, mirroring the
fallible sqlx queries.
-/

namespace InklessDb

/-! ## serde_json model -/

/-- Model of `serde_json::Number`: a u64, a negative i64, or an f64,
mirroring the three internal representations used by serde_json. -/
inductive JNum where
  | posInt (u : Nat)
  | negInt (i : Int)
  | float (f : Float)

/-- Model of `serde_json::Value`. -/
inductive Json where
  | null
  | bool (b : Bool)
  | num (n : JNum)
  | str (s : String)
  | arr (xs : List Json)
  | obj (fields : List (String × Json))

/-- Model of `serde_json::Number::as_i64`: a non-negative value succeeds
when it fits in `i64::MAX`, a negative value always succeeds, a float
never does. -/
def jnum_as_i64 : JNum → Option Int
  | .posInt u => if u ≤ 9223372036854775807 then some (u : Int) else none
  | .negInt i => some i
  | .float _ => none

/-- Model of `serde_json::Number::as_u64`: succeeds exactly on the
non-negative (u64-backed) representation. -/
def jnum_as_u64 : JNum → Option Nat
  | .posInt u => some u
  | .negInt _ => none
  | .float _ => none

/-- Model of `serde_json::Number::as_f64`. -/
def jnum_as_f64 : JNum → Option Float
  | .posInt u => some (Float.ofNat u)
  | .negInt i => some (Float.ofInt i)
  | .float f => some f

/-- Model of `serde_json::Value::as_str`. -/
def json_as_str : Json → Option String
  | .str s => some s
  | _ => none

/-- Decimal rendering of a JSON number.  For the float representation the
source (serde_json) uses shortest round-trip formatting; Lean's
`Float.toString` stands in for it here (no claim depends on the digits). -/
def jnum_to_string : JNum → String
  | .posInt u => toString u
  | .negInt i => toString i
  | .float f => toString f

/-- JSON string escaping as performed by serde_json: quote, backslash and
the control characters get two-character escapes, remaining control
characters a `\u00XX` escape. -/
def json_escape_char (c : Char) : String :=
  if c = '"' then "\\\""
  else if c = '\\' then "\\\\"
  else if c = '\n' then "\\n"
  else if c = '\t' then "\\t"
  else if c = '\r' then "\\r"
  else if c = Char.ofNat 8 then "\\b"
  else if c = Char.ofNat 12 then "\\f"
  else if c.toNat < 32 then
    "\\u00" ++ String.mk [Nat.digitChar (c.toNat / 16), Nat.digitChar (c.toNat % 16)]
  else String.singleton c

/-- Escaped, quoted JSON string literal. -/
def json_escape_string (s : String) : String :=
  "\"" ++ String.join (s.toList.map json_escape_char) ++ "\""

mutual

/-- Model of `serde_json::Value::to_string` (compact form, `,` and `:`
separators), used by the builder when a compound value is bound to a
scalar-typed operator. -/
def json_serialize : Json → String
  | .null => "null"
  | .bool true => "true"
  | .bool false => "false"
  | .num n => jnum_to_string n
  | .str s => json_escape_string s
  | .arr xs => "[" ++ json_serialize_arr xs ++ "]"
  | .obj fs => "\x7b" ++ json_serialize_obj fs ++ "\x7d"

/-- Comma-joined serialization of array elements. -/
def json_serialize_arr : List Json → String
  | [] => ""
  | [x] => json_serialize x
  | x :: y :: rest => json_serialize x ++ "," ++ json_serialize_arr (y :: rest)

/-- Comma-joined serialization of object fields. -/
def json_serialize_obj : List (String × Json) → String
  | [] => ""
  | [(k, v)] => json_escape_string k ++ ":" ++ json_serialize v
  | (k, v) :: y :: rest =>
      json_escape_string k ++ ":" ++ json_serialize v ++ "," ++ json_serialize_obj (y :: rest)

end

/-! ## Query Builder model (src-tauri/src/db/builder.rs) -/

/-- Mirror of `Dialect` in mod.rs. -/
inductive Dialect where
  | Sqlite
  | Postgres
  | MySql
deriving DecidableEq

/-- Mirror of `Driver` in mod.rs. -/
inductive Driver where
  | Sqlite
  | Postgres
  | MySql
deriving DecidableEq

/-- Mirror of `FilterCond` in builder.rs. -/
structure FilterCond where
  column : String
  op : String
  value : Json

/-- Mirror of `SelectSpec` in builder.rs. -/
structure SelectSpec where
  table : String
  columns : List String
  filters : List FilterCond
  sort : Option (String × Bool)
  limit : Option Nat
  offset : Option Nat

/-- Mirror of `UpdateSpec` in builder.rs. -/
structure UpdateSpec where
  table : String
  values : List (String × Json)
  filters : List FilterCond

/-- Mirror of `DeleteSpec` in builder.rs. -/
structure DeleteSpec where
  table : String
  filters : List FilterCond

/-- A sea_query bind value as produced by the builder: `Expr::val` on
null, bool, i64, f64 or string, plus the `BigUnsigned` values sea_query
itself creates for LIMIT/OFFSET. -/
inductive SqlParam where
  | pnull
  | pbool (b : Bool)
  | pint (i : Int)
  | pfloat (f : Float)
  | pstr (s : String)
  | pbigu (u : Nat)

/-- The truncating cast `u as i64` of Rust: two's-complement
reinterpretation of a u64 bit pattern as an i64. -/
def wrap_i64 (u : Nat) : Int :=
  if u < 9223372036854775808 then (u : Int) else (u : Int) - 18446744073709551616

/-- Mirror of `json_to_simple` in builder.rs: null binds SQL NULL, bool
binds bool, a number tries `as_i64`, then `as_u64` with a truncating
cast, then `as_f64`; strings bind as strings; arrays/objects bind their
compact JSON serialization as a string. -/
def json_to_simple : Json → SqlParam
  | .null => .pnull
  | .bool b => .pbool b
  | .num n =>
      match jnum_as_i64 n with
      | some i => .pint i
      | none =>
        match jnum_as_u64 n with
        | some u => .pint (wrap_i64 u)
        | none =>
          match jnum_as_f64 n with
          | some f => .pfloat f
          | none => .pnull
  | .str s => .pstr s
  | .arr xs => .pstr (json_serialize (.arr xs))
  | .obj fs => .pstr (json_serialize (.obj fs))

/-- Mirror of `json_array_to_simples` in builder.rs: an array maps
element-wise, any other value becomes a single-element list. -/
def json_array_to_simples : Json → List SqlParam
  | .arr xs => xs.map json_to_simple
  | .null => [json_to_simple .null]
  | .bool b => [json_to_simple (.bool b)]
  | .num n => [json_to_simple (.num n)]
  | .str s => [json_to_simple (.str s)]
  | .obj fs => [json_to_simple (.obj fs)]

/-- Binary comparison operators the builder can emit in a WHERE predicate. -/
inductive BinOp where
  | beq
  | bne
  | bgt
  | bge
  | blt
  | ble
  | blike
  | bnotlike
deriving DecidableEq

/-- The sea_query expression a single filter is translated into: a
binary comparison with one bind, an IS NULL test, or an IN list. -/
inductive CondExpr where
  | binary (table col : String) (op : BinOp) (v : SqlParam)
  | isNull (table col : String)
  | isNotNull (table col : String)
  | isIn (table col : String) (vs : List SqlParam)
  | isNotIn (table col : String) (vs : List SqlParam)

/-- Translation of one `FilterCond` by `build_select` (the `match
cond.op.as_str()` in builder.rs, written as the equivalent
equality-test chain): the final catch-all falls back to equality. -/
def select_filter_expr (table : String) (c : FilterCond) : CondExpr :=
  if c.op = "=" then .binary table c.column .beq (json_to_simple c.value)
  else if c.op = "!=" then .binary table c.column .bne (json_to_simple c.value)
  else if c.op = ">" then .binary table c.column .bgt (json_to_simple c.value)
  else if c.op = ">=" then .binary table c.column .bge (json_to_simple c.value)
  else if c.op = "<" then .binary table c.column .blt (json_to_simple c.value)
  else if c.op = "<=" then .binary table c.column .ble (json_to_simple c.value)
  else if c.op = "like" then
    .binary table c.column .blike (.pstr ((json_as_str c.value).getD ""))
  else if c.op = "not_like" then
    .binary table c.column .bnotlike (.pstr ((json_as_str c.value).getD ""))
  else if c.op = "is_null" then .isNull table c.column
  else if c.op = "is_not_null" then .isNotNull table c.column
  else if c.op = "in" then .isIn table c.column (json_array_to_simples c.value)
  else if c.op = "not_in" then .isNotIn table c.column (json_array_to_simples c.value)
  else .binary table c.column .beq (json_to_simple c.value)

/-- Translation of one `FilterCond` by `build_update` and `build_delete`
(these builders only match `=` and `!=`, everything else falls back to
equality). -/
def update_filter_expr (table : String) (c : FilterCond) : CondExpr :=
  if c.op = "=" then .binary table c.column .beq (json_to_simple c.value)
  else if c.op = "!=" then .binary table c.column .bne (json_to_simple c.value)
  else .binary table c.column .beq (json_to_simple c.value)

/-- SQL text token: literal text, or one bind-parameter placeholder. -/
inductive SqlTok where
  | lit (s : String)
  | ph

/-- Number of parameter placeholders in a token list. -/
def ph_count : List SqlTok → Nat
  | [] => 0
  | .lit _ :: rest => ph_count rest
  | .ph :: rest => 1 + ph_count rest

/-- Dialect-specific identifier quoting as sea_query performs it:
backquotes for MySQL, double quotes for Postgres and SQLite, with an
embedded quote character doubled. -/
def quote_ident (d : Dialect) (s : String) : String :=
  match d with
  | .MySql => "`" ++ s.replace "`" "``" ++ "`"
  | _ => "\"" ++ s.replace "\"" "\"\"" ++ "\""

/-- A `table.column` reference as rendered by sea_query. -/
def col_ref (d : Dialect) (table col : String) : String :=
  quote_ident d table ++ "." ++ quote_ident d col

/-- SQL spelling of a binary comparison operator. -/
def bin_op_sql : BinOp → String
  | .beq => " = "
  | .bne => " <> "
  | .bgt => " > "
  | .bge => " >= "
  | .blt => " < "
  | .ble => " <= "
  | .blike => " LIKE "
  | .bnotlike => " NOT LIKE "

/-- Tokens of `n` placeholders separated by a comma, as inside `IN (...)`. -/
def ph_join : Nat → List SqlTok
  | 0 => []
  | 1 => [.ph]
  | n + 2 => .ph :: .lit ", " :: ph_join (n + 1)

/-- Join token groups with a fixed literal separator. -/
def tok_join (sep : String) : List (List SqlTok) → List SqlTok
  | [] => []
  | [x] => x
  | x :: y :: rest => x ++ SqlTok.lit sep :: tok_join sep (y :: rest)

/-- SQL tokens of one translated filter condition.  An empty IN list is
rendered by sea_query as the constant `1 = 2` (and an empty NOT IN as
`1 = 1`) with no placeholder. -/
def cond_tokens (d : Dialect) : CondExpr → List SqlTok
  | .binary t c op _ => [.lit (col_ref d t c ++ bin_op_sql op), .ph]
  | .isNull t c => [.lit (col_ref d t c ++ " IS NULL")]
  | .isNotNull t c => [.lit (col_ref d t c ++ " IS NOT NULL")]
  | .isIn t c vs =>
      if vs.isEmpty then [.lit "1 = 2"]
      else .lit (col_ref d t c ++ " IN (") :: ph_join vs.length ++ [.lit ")"]
  | .isNotIn t c vs =>
      if vs.isEmpty then [.lit "1 = 1"]
      else .lit (col_ref d t c ++ " NOT IN (") :: ph_join vs.length ++ [.lit ")"]

/-- Bind parameters collected from one translated filter condition, in
render order. -/
def cond_params : CondExpr → List SqlParam
  | .binary _ _ _ v => [v]
  | .isNull _ _ => []
  | .isNotNull _ _ => []
  | .isIn _ _ vs => vs
  | .isNotIn _ _ vs => vs

/-- Render a token list to the final SQL string: sea-query-binder uses
`?` placeholders for SQLite and MySQL and numbered `$n` placeholders for
Postgres. -/
def render_tokens (d : Dialect) : List SqlTok → Nat → String
  | [], _ => ""
  | .lit s :: rest, n => s ++ render_tokens d rest n
  | .ph :: rest, n =>
      (match d with
       | .Postgres => "$" ++ toString n
       | _ => "?") ++ render_tokens d rest (n + 1)

/-- Mirror of `build_select` in builder.rs at the token level: SELECT
list (or `*`), FROM, each filter AND-combined in a WHERE clause, an
optional ORDER BY, and LIMIT/OFFSET — which sea_query itself emits as
bind parameters.  Returns the SQL tokens and the collected bind values
in render order. -/
def build_select_tokens (s : SelectSpec) (d : Dialect) : List SqlTok × List SqlParam :=
  let exprs := s.filters.map (select_filter_expr s.table)
  let selCols :=
    if s.columns.isEmpty then "*"
    else String.intercalate ", " (s.columns.map (col_ref d s.table))
  let head := SqlTok.lit ("SELECT " ++ selCols ++ " FROM " ++ quote_ident d s.table)
  let whereToks :=
    if exprs.isEmpty then []
    else SqlTok.lit " WHERE " :: tok_join " AND " (exprs.map (cond_tokens d))
  let orderToks :=
    match s.sort with
    | none => []
    | some (c, asc) =>
        [SqlTok.lit (" ORDER BY " ++ col_ref d s.table c ++ (if asc then " ASC" else " DESC"))]
  let limitToks := match s.limit with | none => [] | some _ => [SqlTok.lit " LIMIT ", SqlTok.ph]
  let offsetToks := match s.offset with | none => [] | some _ => [SqlTok.lit " OFFSET ", SqlTok.ph]
  let ps :=
    (exprs.map cond_params).flatten
      ++ (match s.limit with | none => [] | some l => [SqlParam.pbigu l])
      ++ (match s.offset with | none => [] | some o => [SqlParam.pbigu o])
  (head :: whereToks ++ orderToks ++ limitToks ++ offsetToks, ps)

/-- Mirror of `build_select`: final (SQL text, positional parameters). -/
def build_select (s : SelectSpec) (d : Dialect) : String × List SqlParam :=
  (render_tokens d (build_select_tokens s d).1 1, (build_select_tokens s d).2)

/-- Mirror of `build_update` at the token level: SET assignments (one
bind each, in order) followed by the restricted filter translation. -/
def build_update_tokens (s : UpdateSpec) (d : Dialect) : List SqlTok × List SqlParam :=
  let exprs := s.filters.map (update_filter_expr s.table)
  let head := SqlTok.lit ("UPDATE " ++ quote_ident d s.table ++ " SET ")
  let setToks :=
    tok_join ", " (s.values.map (fun p => [SqlTok.lit (quote_ident d p.1 ++ " = "), SqlTok.ph]))
  let whereToks :=
    if exprs.isEmpty then []
    else SqlTok.lit " WHERE " :: tok_join " AND " (exprs.map (cond_tokens d))
  let ps := s.values.map (fun p => json_to_simple p.2) ++ (exprs.map cond_params).flatten
  (head :: setToks ++ whereToks, ps)

/-- Mirror of `build_update`: final (SQL text, positional parameters). -/
def build_update (s : UpdateSpec) (d : Dialect) : String × List SqlParam :=
  (render_tokens d (build_update_tokens s d).1 1, (build_update_tokens s d).2)

/-- Mirror of `build_delete` at the token level. -/
def build_delete_tokens (s : DeleteSpec) (d : Dialect) : List SqlTok × List SqlParam :=
  let exprs := s.filters.map (update_filter_expr s.table)
  let head := SqlTok.lit ("DELETE FROM " ++ quote_ident d s.table)
  let whereToks :=
    if exprs.isEmpty then []
    else SqlTok.lit " WHERE " :: tok_join " AND " (exprs.map (cond_tokens d))
  let ps := (exprs.map cond_params).flatten
  (head :: whereToks, ps)

/-- Mirror of `build_delete`: final (SQL text, positional parameters). -/
def build_delete (s : DeleteSpec) (d : Dialect) : String × List SqlParam :=
  (render_tokens d (build_delete_tokens s d).1 1, (build_delete_tokens s d).2)

/-- The operator strings explicitly recognized by `build_select`
(builder.rs line 75-87); anything else hits the catch-all arm. -/
def recognized_ops : List String :=
  ["=", "!=", ">", ">=", "<", "<=", "like", "not_like",
   "is_null", "is_not_null", "in", "not_in"]

/-! ## Result Materializer model (rows_to_result_* in src-tauri/src/db/mod.rs) -/

/-- The base64 alphabet of the STANDARD engine. -/
def base64_chars : List Char :=
  "ABCDEFGHIJKLMNOPQRSTUVWXYZabcdefghijklmnopqrstuvwxyz0123456789+/".toList

/-- Character at one 6-bit index of the base64 alphabet. -/
def b64_char (n : Nat) : Char :=
  base64_chars.getD n 'A'

/-- Standard base64 with padding (the `STANDARD` engine of the base64
crate), over a byte list: 3-byte groups map to 4 alphabet characters, a
2-byte tail to 3 characters plus one pad, a 1-byte tail to 2 characters
plus two pads. -/
def base64_encode : List Nat → String
  | [] => ""
  | [b0] =>
      String.mk [b64_char (b0 / 4), b64_char (b0 % 4 * 16)] ++ "=="
  | [b0, b1] =>
      String.mk [b64_char (b0 / 4), b64_char (b0 % 4 * 16 + b1 / 16),
                 b64_char (b1 % 16 * 4)] ++ "="
  | b0 :: b1 :: b2 :: rest =>
      String.mk [b64_char (b0 / 4), b64_char (b0 % 4 * 16 + b1 / 16),
                 b64_char (b1 % 16 * 4 + b2 / 64), b64_char (b2 % 64)]
        ++ base64_encode rest

/-- A raw driver cell, abstracted as the outcome of each typed
`row.try_get` attempt the materializer performs: `some` when that typed
extraction would succeed, `none` when it would fail. -/
structure RawCell where
  int64 : Option Int
  float64 : Option Float
  boolean : Option Bool
  string : Option String
  bytes : Option (List Nat)

/-- A raw driver row: its column names (as `row.columns()` reports them)
and its cells. -/
structure RawRow where
  columns : List String
  cells : List RawCell

/-- Model of `serde_json::Value::from(i64)`: negative values use the
negative representation, others the unsigned one. -/
def json_of_i64 (v : Int) : Json :=
  if v < 0 then .num (.negInt v) else .num (.posInt v.toNat)

/-- Model of `serde_json::Value::from(f64)`: a finite float becomes a
number, a non-finite one becomes null (`Number::from_f64` refuses it). -/
def json_of_f64 (f : Float) : Json :=
  if f.isFinite then .num (.float f) else .null

/-- The per-cell conversion chain of `rows_to_result_sqlite`,
`rows_to_result_pg` and `rows_to_result_mysql` (the chain is repeated
verbatim in all three): try i64, then f64, then bool, then String, then
`Vec<u8>` (base64-encoded), else null. -/
def cell_to_value (c : RawCell) : Json :=
  match c.int64 with
  | some v => json_of_i64 v
  | none =>
    match c.float64 with
    | some f => json_of_f64 f
    | none =>
      match c.boolean with
      | some b => .bool b
      | none =>
        match c.string with
        | some s => .str s
        | none =>
          match c.bytes with
          | some bs => .str (base64_encode bs)
          | none => .null

/-- Mirror of `QueryResult` in mod.rs. -/
structure QueryResult where
  columns : List String
  rows : List (List Json)
  truncated : Bool

/-- The enumerate loop shared by the three `rows_to_result_*` functions:
column names are taken from the row at index 0; before converting a row
the loop breaks once `cap` rows have been collected. -/
def rows_to_result_go (cap : Nat) :
    List RawRow → Nat → List String → List (List Json) → List String × List (List Json)
  | [], _, cols, out => (cols, out)
  | r :: rest, idx, cols, out =>
      let cols' := if idx == 0 then r.columns else cols
      if cap ≤ out.length then (cols', out)
      else rows_to_result_go cap rest (idx + 1) cols' (out ++ [r.cells.map cell_to_value])

/-- The shared body of `rows_to_result_sqlite` / `_pg` / `_mysql` (the
three are textually identical in mod.rs apart from the driver row type):
run the loop, then set `truncated` to whether the collected row count
reached `cap`. -/
def rows_to_result (rows : List RawRow) (cap : Nat) : QueryResult :=
  let p := rows_to_result_go cap rows 0 [] []
  { columns := p.1, rows := p.2, truncated := decide (cap ≤ p.2.length) }

/-- Mirror of `rows_to_result_sqlite` in mod.rs. -/
def rows_to_result_sqlite (rows : List RawRow) (cap : Nat) : QueryResult :=
  rows_to_result rows cap

/-- Mirror of `rows_to_result_pg` in mod.rs. -/
def rows_to_result_pg (rows : List RawRow) (cap : Nat) : QueryResult :=
  rows_to_result rows cap

/-- Mirror of `rows_to_result_mysql` in mod.rs. -/
def rows_to_result_mysql (rows : List RawRow) (cap : Nat) : QueryResult :=
  rows_to_result rows cap

/-! ## Pool options (src-tauri/src/db/pool.rs) and open_connection (mod.rs) -/

/-- Mirror of `PoolOptions` in pool.rs. -/
structure PoolOptions where
  max_connections : Nat
  acquire_timeout_ms : Nat
  idle_timeout_ms : Option Nat
deriving DecidableEq

/-- Mirror of `PoolOptions::default` in pool.rs: 5 connections, 10s
acquire timeout, 300s idle timeout. -/
def PoolOptions.default : PoolOptions :=
  { max_connections := 5, acquire_timeout_ms := 10000, idle_timeout_ms := some 300000 }

/-- The settings a code path explicitly applies to the sqlx pool builder
before `connect`; a `none` field means the builder setting is never
called, leaving the sqlx engine default in force. -/
structure SqlxPoolConfig where
  max_connections : Option Nat
  acquire_timeout_ms : Option Nat
  idle_timeout_ms : Option Nat
deriving DecidableEq

/-- The pool configuration applied by `open_connection` in mod.rs: every
driver arm calls only `.max_connections(5)` on the fresh builder and
then connects — no acquire or idle timeout is set. -/
def open_connection_pool_config (d : Driver) : SqlxPoolConfig :=
  match d with
  | .Sqlite => { max_connections := some 5, acquire_timeout_ms := none, idle_timeout_ms := none }
  | .Postgres => { max_connections := some 5, acquire_timeout_ms := none, idle_timeout_ms := none }
  | .MySql => { max_connections := some 5, acquire_timeout_ms := none, idle_timeout_ms := none }

/-- The pool configuration applied by `create_pool` in pool.rs: the
options argument (defaulted via `PoolOptions::default` when absent) is
applied as max connections, acquire timeout, and — when present — idle
timeout, identically in each driver arm. -/
def create_pool_config (d : Driver) (opts : Option PoolOptions) : SqlxPoolConfig :=
  let o := opts.getD PoolOptions.default
  match d with
  | .Sqlite =>
      { max_connections := some o.max_connections,
        acquire_timeout_ms := some o.acquire_timeout_ms,
        idle_timeout_ms := o.idle_timeout_ms }
  | .Postgres =>
      { max_connections := some o.max_connections,
        acquire_timeout_ms := some o.acquire_timeout_ms,
        idle_timeout_ms := o.idle_timeout_ms }
  | .MySql =>
      { max_connections := some o.max_connections,
        acquire_timeout_ms := some o.acquire_timeout_ms,
        idle_timeout_ms := o.idle_timeout_ms }

/-! ## Schema Inspector model (src-tauri/src/db/schema.rs) -/

/-- Mirror of `ColumnDef` in schema.rs (`default` is the optional
default-value expression). -/
structure ColumnDef where
  name : String
  data_type : String
  not_null : Bool
  default : Option String
  is_pk : Bool

/-- Mirror of `ForeignKeyDef` in schema.rs (`from` is a Lean keyword, so
the field is `from_`; likewise `to_`). -/
structure ForeignKeyDef where
  from_ : String
  ref_schema : Option String
  to_table : String
  to_ : String

/-- Mirror of `TableDef` in schema.rs. -/
structure TableDef where
  schema : String
  name : String
  type_ : String
  columns : List ColumnDef
  foreign_keys : List ForeignKeyDef

/-- Mirror of `DatabaseSchema` in schema.rs. -/
structure DatabaseSchema where
  dialect : String
  schemas : List String
  tables : List TableDef

/-- One row of `PRAGMA table_info`, with each field as the outcome of
the corresponding `try_get` (the source defaults each failure). -/
structure SqliteColRow where
  name : Option String
  type_ : Option String
  notnull : Option Int
  dflt_value : Option (Option String)
  pk : Option Int

/-- One row of `PRAGMA foreign_key_list`. -/
structure SqliteFkRow where
  from_ : Option String
  table : Option String
  to_ : Option String

/-- The SQLite catalog surface `inspect_sqlite` queries, as an oracle:
the sqlite_master table/view listing, and the two per-table PRAGMA
queries, each of which can fail like the corresponding sqlx call.
Row-level `try_get` failures on the master rows (which `?`-propagate in
the source) are folded into the listing result. -/
structure SqliteCatalog where
  master_rows : Except String (List (String × String))
  table_info : String → Except String (List SqliteColRow)
  foreign_key_list : String → Except String (List SqliteFkRow)

/-- Column decoding of `inspect_sqlite`: defaulted `try_get`s, `notnull`
and `pk` compared against 1. -/
def sqlite_col_def (r : SqliteColRow) : ColumnDef :=
  { name := r.name.getD "",
    data_type := r.type_.getD "",
    not_null := r.notnull.getD 0 == 1,
    default := r.dflt_value.getD none,
    is_pk := r.pk.getD 0 == 1 }

/-- Foreign-key decoding of `inspect_sqlite`: `ref_schema` is always
`None` on this path. -/
def sqlite_fk_def (r : SqliteFkRow) : ForeignKeyDef :=
  { from_ := r.from_.getD "",
    ref_schema := none,
    to_table := r.table.getD "",
    to_ := r.to_.getD "" }

/-- The per-table loop of `inspect_sqlite`: for each (name, type) pair
from sqlite_master, run `PRAGMA table_info` then `PRAGMA
foreign_key_list`, aborting on the first failure; every produced
`TableDef` carries schema `"main"`. -/
def inspect_sqlite_tables (cat : SqliteCatalog) :
    List (String × String) → Except String (List TableDef)
  | [] => .ok []
  | (name, ty) :: rest =>
    match cat.table_info name with
    | .error e => .error e
    | .ok cols =>
      match cat.foreign_key_list name with
      | .error e => .error e
      | .ok fks =>
        match inspect_sqlite_tables cat rest with
        | .error e => .error e
        | .ok rest' =>
            .ok ({ schema := "main", name := name, type_ := ty,
                   columns := cols.map sqlite_col_def,
                   foreign_keys := fks.map sqlite_fk_def } :: rest')

/-- Mirror of `inspect_sqlite` in schema.rs: list tables/views from
sqlite_master, inspect each, and return a schema whose `schemas` list is
exactly `["main"]`. -/
def inspect_sqlite (cat : SqliteCatalog) : Except String DatabaseSchema :=
  match cat.master_rows with
  | .error e => .error e
  | .ok tv =>
    match inspect_sqlite_tables cat tv with
    | .error e => .error e
    | .ok tables => .ok { dialect := "sqlite", schemas := ["main"], tables := tables }

/-- One row of the Postgres column catalog query. -/
structure PgColRow where
  column_name : Option String
  data_type : Option String
  not_null : Option Bool
  default : Option (Option String)
  is_pk : Option Bool

/-- One row of the Postgres foreign-key catalog query. -/
structure PgFkRow where
  from_ : Option String
  ref_schema : Option String
  to_table : Option String
  to_ : Option String

/-- The Postgres catalog surface `inspect_postgres` queries: the
information_schema table listing, and per-(schema, table) column and
foreign-key queries. -/
structure PgCatalog where
  tables_rows : Except String (List (String × String × String))
  columns_rows : String → String → Except String (List PgColRow)
  fk_rows : String → String → Except String (List PgFkRow)

/-- Column decoding of `inspect_postgres`. -/
def pg_col_def (r : PgColRow) : ColumnDef :=
  { name := r.column_name.getD "",
    data_type := r.data_type.getD "",
    not_null := r.not_null.getD false,
    default := r.default.getD none,
    is_pk := r.is_pk.getD false }

/-- Foreign-key decoding of `inspect_postgres` (`ref_schema` is wrapped
in `Some` of a defaulted string). -/
def pg_fk_def (r : PgFkRow) : ForeignKeyDef :=
  { from_ := r.from_.getD "",
    ref_schema := some (r.ref_schema.getD ""),
    to_table := r.to_table.getD "",
    to_ := r.to_.getD "" }

/-- The per-table loop of `inspect_postgres`. -/
def inspect_postgres_tables (cat : PgCatalog) :
    List (String × String × String) → Except String (List TableDef)
  | [] => .ok []
  | (schema, name, ty) :: rest =>
    match cat.columns_rows schema name with
    | .error e => .error e
    | .ok cols =>
      match cat.fk_rows schema name with
      | .error e => .error e
      | .ok fks =>
        match inspect_postgres_tables cat rest with
        | .error e => .error e
        | .ok rest' =>
            .ok ({ schema := schema, name := name, type_ := ty,
                   columns := cols.map pg_col_def,
                   foreign_keys := fks.map pg_fk_def } :: rest')

/-- Mirror of `inspect_postgres` in schema.rs: after the per-table loop
the `schemas` list is collected as one entry per table
(`tables.iter().map(|t| t.schema.clone()).collect()`) with no
deduplication. -/
def inspect_postgres (cat : PgCatalog) : Except String DatabaseSchema :=
  match cat.tables_rows with
  | .error e => .error e
  | .ok tv =>
    match inspect_postgres_tables cat tv with
    | .error e => .error e
    | .ok tables =>
        .ok { dialect := "postgres",
              schemas := tables.map (fun t => t.schema),
              tables := tables }

/-- One row of the MySQL column catalog query. -/
structure MySqlColRow where
  column_name : Option String
  data_type : Option String
  is_nullable : Option String
  column_default : Option (Option String)
  column_key : Option String

/-- One row of the MySQL foreign-key catalog query. -/
structure MySqlFkRow where
  from_ : Option String
  ref_schema : Option (Option String)
  to_table : Option String
  to_ : Option String

/-- The MySQL catalog surface `inspect_mysql` queries. -/
structure MySqlCatalog where
  tables_rows : Except String (List (String × String × String))
  columns_rows : String → String → Except String (List MySqlColRow)
  fk_rows : String → String → Except String (List MySqlFkRow)

/-- Column decoding of `inspect_mysql`: nullability from the
`is_nullable` string (defaulting to "YES"), primary key from
`column_key == "PRI"`. -/
def mysql_col_def (r : MySqlColRow) : ColumnDef :=
  { name := r.column_name.getD "",
    data_type := r.data_type.getD "",
    not_null := r.is_nullable.getD "YES" == "NO",
    default := r.column_default.getD none,
    is_pk := r.column_key.getD "" == "PRI" }

/-- Foreign-key decoding of `inspect_mysql`. -/
def mysql_fk_def (r : MySqlFkRow) : ForeignKeyDef :=
  { from_ := r.from_.getD "",
    ref_schema := r.ref_schema.getD none,
    to_table := r.to_table.getD "",
    to_ := r.to_.getD "" }

/-- The per-table loop of `inspect_mysql`. -/
def inspect_mysql_tables (cat : MySqlCatalog) :
    List (String × String × String) → Except String (List TableDef)
  | [] => .ok []
  | (schema, name, ty) :: rest =>
    match cat.columns_rows schema name with
    | .error e => .error e
    | .ok cols =>
      match cat.fk_rows schema name with
      | .error e => .error e
      | .ok fks =>
        match inspect_mysql_tables cat rest with
        | .error e => .error e
        | .ok rest' =>
            .ok ({ schema := schema, name := name, type_ := ty,
                   columns := cols.map mysql_col_def,
                   foreign_keys := fks.map mysql_fk_def } :: rest')

/-- Ascending insertion used to model `Vec::sort` on strings. -/
def insert_sorted (x : String) : List String → List String
  | [] => [x]
  | y :: rest => if x ≤ y then x :: y :: rest else y :: insert_sorted x rest

/-- Model of `Vec::sort` for strings (ascending). -/
def sort_strings : List String → List String
  | [] => []
  | x :: rest => insert_sorted x (sort_strings rest)

/-- Model of `Vec::dedup`: remove consecutive duplicates. -/
def dedup_adjacent : List String → List String
  | [] => []
  | [x] => [x]
  | x :: y :: rest =>
      if x = y then dedup_adjacent (y :: rest) else x :: dedup_adjacent (y :: rest)

/-- Mirror of `inspect_mysql` in schema.rs: after the per-table loop the
schemas list is collected per table, then sorted and deduplicated. -/
def inspect_mysql (cat : MySqlCatalog) : Except String DatabaseSchema :=
  match cat.tables_rows with
  | .error e => .error e
  | .ok tv =>
    match inspect_mysql_tables cat tv with
    | .error e => .error e
    | .ok tables =>
        .ok { dialect := "mysql",
              schemas := dedup_adjacent (sort_strings (tables.map (fun t => t.schema))),
              tables := tables }

/-- Mirror of `DynPool` in mod.rs: one variant per engine.  Here each
variant carries the catalog oracle the Schema Inspector would query
through that pool. -/
inductive DynPool where
  | sqlite (cat : SqliteCatalog)
  | postgres (cat : PgCatalog)
  | mysql (cat : MySqlCatalog)

/-- Mirror of `inspect_schema` in schema.rs: dispatch on the pool variant. -/
def inspect_schema : DynPool → Except String DatabaseSchema
  | .sqlite cat => inspect_sqlite cat
  | .postgres cat => inspect_postgres cat
  | .mysql cat => inspect_mysql cat

/-- All catalog queries the SQLite path would issue succeed: the master
listing, and both PRAGMA queries for every listed table. -/
def sqlite_catalog_ok (cat : SqliteCatalog) : Prop :=
  ∃ tv, cat.master_rows = .ok tv ∧
    ∀ p ∈ tv, (∃ c, cat.table_info p.1 = .ok c) ∧ (∃ f, cat.foreign_key_list p.1 = .ok f)

/-- All catalog queries the Postgres path would issue succeed. -/
def pg_catalog_ok (cat : PgCatalog) : Prop :=
  ∃ tv, cat.tables_rows = .ok tv ∧
    ∀ p ∈ tv, (∃ c, cat.columns_rows p.1 p.2.1 = .ok c) ∧ (∃ f, cat.fk_rows p.1 p.2.1 = .ok f)

/-- All catalog queries the MySQL path would issue succeed. -/
def mysql_catalog_ok (cat : MySqlCatalog) : Prop :=
  ∃ tv, cat.tables_rows = .ok tv ∧
    ∀ p ∈ tv, (∃ c, cat.columns_rows p.1 p.2.1 = .ok c) ∧ (∃ f, cat.fk_rows p.1 p.2.1 = .ok f)

/-- Every catalog query issued on the dispatched dialect path succeeds. -/
def catalog_queries_ok : DynPool → Prop
  | .sqlite cat => sqlite_catalog_ok cat
  | .postgres cat => pg_catalog_ok cat
  | .mysql cat => mysql_catalog_ok cat

/-! ## Connection Registry model (mod.rs) -/

/-- The registry's id-to-pool map, as the partial map it implements
(`HashMap<String, DynPool>` behind the lock). -/
def Registry := String → Option DynPool

/-- Mirror of `close_connection` in mod.rs: remove the id from the map
(a no-op when absent) and return `Ok(())` unconditionally. -/
def close_connection (reg : Registry) (conn_id : String) : Registry × Except String Unit :=
  (fun k => if k = conn_id then none else reg k, .ok ())

/-! ## Materializer lemmas and claims C1, C8 -/

lemma rows_to_result_go_length (cap : Nat) (rows : List RawRow) :
    ∀ (idx : Nat) (cols : List String) (out : List (List Json)), out.length ≤ cap →
      ((rows_to_result_go cap rows idx cols out).2).length = min (out.length + rows.length) cap := by
  induction rows with
  | nil =>
    intro idx cols out h
    show out.length = min (out.length + (0 : Nat)) cap
    omega
  | cons r rest ih =>
    intro idx cols out h
    simp only [rows_to_result_go]
    by_cases hc : cap ≤ out.length
    · rw [if_pos hc]
      show out.length = min (out.length + (rest.length + 1)) cap
      omega
    · rw [if_neg hc]
      have hle : (out ++ [r.cells.map cell_to_value]).length ≤ cap := by
        simp only [List.length_append, List.length_cons, List.length_nil]
        omega
      rw [ih (idx + 1) _ _ hle]
      simp only [List.length_append, List.length_cons, List.length_nil]
      omega

/-- Claim C1 (amended): on every dialect path of the result
materializer, the number of returned rows is the minimum of the
underlying row count and the cap, and `truncated` is true exactly when
the underlying result has at least `cap` rows — so a result with exactly
`cap` rows yields `truncated = true` (not false as originally claimed),
and a result with `cap + 1` or more rows yields exactly `cap` rows with
`truncated = true`. -/
theorem c1_truncation_boundary (rows : List RawRow) (cap : Nat) :
    ((rows_to_result_sqlite rows cap).rows.length = min rows.length cap
      ∧ ((rows_to_result_sqlite rows cap).truncated = true ↔ cap ≤ rows.length))
    ∧ ((rows_to_result_pg rows cap).rows.length = min rows.length cap
      ∧ ((rows_to_result_pg rows cap).truncated = true ↔ cap ≤ rows.length))
    ∧ ((rows_to_result_mysql rows cap).rows.length = min rows.length cap
      ∧ ((rows_to_result_mysql rows cap).truncated = true ↔ cap ≤ rows.length)) := by
  have hlen : ((rows_to_result_go cap rows 0 [] []).2).length = min rows.length cap := by
    have := rows_to_result_go_length cap rows 0 [] [] (by simp)
    simpa using this
  have hcore :
      (rows_to_result rows cap).rows.length = min rows.length cap
      ∧ ((rows_to_result rows cap).truncated = true ↔ cap ≤ rows.length) := by
    constructor
    · simpa [rows_to_result] using hlen
    · simp only [rows_to_result, decide_eq_true_eq]
      rw [hlen]
      omega
  exact ⟨hcore, hcore, hcore⟩

/-- Two concrete single-cell rows used for the C1 counterexample. -/
def c1_cex_rows : List RawRow :=
  [{ columns := ["id"], cells := [{ int64 := some 1, float64 := none, boolean := none,
                                    string := none, bytes := none }] },
   { columns := ["id"], cells := [{ int64 := some 2, float64 := none, boolean := none,
                                    string := none, bytes := none }] }]

/-- Claim C1 counterexample: an underlying result with exactly `cap = 2`
rows returns all 2 rows but `truncated = true`, refuting the claimed
`truncated = false` at the exact-cap boundary. -/
theorem c1_counterexample :
    (rows_to_result_sqlite c1_cex_rows 2).rows.length = 2
    ∧ (rows_to_result_sqlite c1_cex_rows 2).truncated = true := by
  exact ⟨rfl, rfl⟩

/-- Claim C8: the result materializer attempts typed extraction in the
fixed order i64, f64, bool, String, binary (the latter base64-encoded
into a string); the first successful extraction determines the canonical
value and a cell matching none becomes null. -/
theorem c8_extraction_priority (c : RawCell) :
    (∀ v, c.int64 = some v → cell_to_value c = json_of_i64 v)
    ∧ (c.int64 = none → ∀ f, c.float64 = some f → cell_to_value c = json_of_f64 f)
    ∧ (c.int64 = none → c.float64 = none → ∀ b, c.boolean = some b →
        cell_to_value c = .bool b)
    ∧ (c.int64 = none → c.float64 = none → c.boolean = none → ∀ s, c.string = some s →
        cell_to_value c = .str s)
    ∧ (c.int64 = none → c.float64 = none → c.boolean = none → c.string = none →
        ∀ bs, c.bytes = some bs → cell_to_value c = .str (base64_encode bs))
    ∧ (c.int64 = none → c.float64 = none → c.boolean = none → c.string = none →
        c.bytes = none → cell_to_value c = .null) := by
  refine ⟨?_, ?_, ?_, ?_, ?_, ?_⟩ <;> intros <;> simp_all [cell_to_value]

/-- Claim C8 witness: the priority chain evaluated at concrete cells,
one per extraction outcome. -/
theorem c8_witness :
    cell_to_value { int64 := some 7, float64 := none, boolean := none,
                    string := none, bytes := none } = json_of_i64 7
    ∧ cell_to_value { int64 := none, float64 := none, boolean := some true,
                      string := none, bytes := none } = Json.bool true
    ∧ cell_to_value { int64 := none, float64 := none, boolean := none,
                      string := some "x", bytes := none } = Json.str "x"
    ∧ cell_to_value { int64 := none, float64 := none, boolean := none,
                      string := none, bytes := some [77, 97, 110] }
        = Json.str (base64_encode [77, 97, 110])
    ∧ cell_to_value { int64 := none, float64 := none, boolean := none,
                      string := none, bytes := none } = Json.null :=
  ⟨(c8_extraction_priority _).1 7 rfl,
   (c8_extraction_priority _).2.2.1 rfl rfl true rfl,
   (c8_extraction_priority _).2.2.2.1 rfl rfl rfl "x" rfl,
   (c8_extraction_priority _).2.2.2.2.1 rfl rfl rfl rfl [77, 97, 110] rfl,
   (c8_extraction_priority _).2.2.2.2.2 rfl rfl rfl rfl rfl⟩

/-! ## Claim C3: pool options applied by open_connection -/

/-- Claim C3 counterexample: `open_connection` does not construct the
pool with the default pool options — it never sets the 10s acquire
timeout (nor the 300s idle timeout) of `PoolOptions::default`. -/
theorem c3_counterexample :
    open_connection_pool_config Driver.Sqlite ≠
      { max_connections := some 5, acquire_timeout_ms := some 10000,
        idle_timeout_ms := some 300000 } := by
  decide

/-- Claim C3 (amended): for every driver, `open_connection` applies only
`max_connections = 5` to the pool builder, leaving acquire and idle
timeouts at the sqlx engine defaults; the 10s/300s defaults live in
`PoolOptions::default` and are applied only by `create_pool` (which
`open_connection` does not call). -/
theorem c3_open_connection_pool_config (d : Driver) :
    open_connection_pool_config d
      = { max_connections := some 5, acquire_timeout_ms := none, idle_timeout_ms := none }
    ∧ create_pool_config d none
      = { max_connections := some 5, acquire_timeout_ms := some 10000,
          idle_timeout_ms := some 300000 } := by
  cases d <;> exact ⟨rfl, rfl⟩

/-! ## Claim C6: close_connection is total and idempotent -/

/-- Claim C6: `close_connection` succeeds for every id (opened or not),
and closing the same id twice leaves the registry exactly as closing it
once — the second call is a no-op, not an error. -/
theorem c6_close_idempotent (reg : Registry) (conn_id : String) :
    (close_connection reg conn_id).2 = .ok ()
    ∧ close_connection (close_connection reg conn_id).1 conn_id
        = close_connection reg conn_id := by
  refine ⟨rfl, ?_⟩
  unfold close_connection
  simp only [Prod.mk.injEq]
  refine ⟨funext fun k => ?_, trivial⟩
  by_cases h : k = conn_id <;> simp [h]

/-! ## Claim C9: integer value binding -/

/-- Claim C9: a JSON integer representable as i64 binds as that integer;
a u64 value above `i64::MAX` is clipped by the truncating cast, binding
its two's-complement reinterpretation `u - 2^64`. -/
theorem c9_integer_binds :
    (∀ u : Nat, u ≤ 9223372036854775807 →
        json_to_simple (.num (.posInt u)) = .pint (u : Int))
    ∧ (∀ i : Int, json_to_simple (.num (.negInt i)) = .pint i)
    ∧ (∀ u : Nat, 9223372036854775807 < u → u < 18446744073709551616 →
        json_to_simple (.num (.posInt u)) = .pint ((u : Int) - 18446744073709551616)) := by
  refine ⟨?_, ?_, ?_⟩
  · intro u h
    simp [json_to_simple, jnum_as_i64, h]
  · intro i
    simp [json_to_simple, jnum_as_i64]
  · intro u h1 h2
    have h3 : ¬ u ≤ 9223372036854775807 := by omega
    have h4 : ¬ u < 9223372036854775808 := by omega
    simp [json_to_simple, jnum_as_i64, jnum_as_u64, wrap_i64, h3, h4]

/-- Claim C9 witness: 5 binds as 5, and `2^63` (just above `i64::MAX`)
binds as `2^63 - 2^64 = i64::MIN`. -/
theorem c9_witness :
    json_to_simple (.num (.posInt 5)) = .pint ((5 : Nat) : Int)
    ∧ json_to_simple (.num (.posInt 9223372036854775808))
        = .pint (((9223372036854775808 : Nat) : Int) - 18446744073709551616) :=
  ⟨c9_integer_binds.1 5 (by decide),
   c9_integer_binds.2.2 9223372036854775808 (by decide) (by decide)⟩

/-! ## Claims C10, C2, C7: schema inspector -/

lemma inspect_sqlite_tables_main (cat : SqliteCatalog) :
    ∀ (l : List (String × String)) (ts : List TableDef),
      inspect_sqlite_tables cat l = .ok ts → ∀ t ∈ ts, t.schema = "main" := by
  intro l
  induction l with
  | nil =>
    intro ts h
    simp only [inspect_sqlite_tables, Except.ok.injEq] at h
    subst h
    simp
  | cons p rest ih =>
    intro ts h
    obtain ⟨name, ty⟩ := p
    simp only [inspect_sqlite_tables] at h
    cases h1 : cat.table_info name with
    | error e => rw [h1] at h; simp at h
    | ok cols =>
      rw [h1] at h
      cases h2 : cat.foreign_key_list name with
      | error e => rw [h2] at h; simp at h
      | ok fks =>
        rw [h2] at h
        cases h3 : inspect_sqlite_tables cat rest with
        | error e => rw [h3] at h; simp at h
        | ok rest' =>
          rw [h3] at h
          simp only [Except.ok.injEq] at h
          subst h
          intro t ht
          rcases List.mem_cons.mp ht with hh | hh
          · subst hh; rfl
          · exact ih rest' h3 t hh

/-- Claim C10: every SQLite inspection returns `schemas = ["main"]` and
every table carries schema `"main"` — no other schema name can appear. -/
theorem c10_sqlite_schemas_main (cat : SqliteCatalog) (s : DatabaseSchema)
    (h : inspect_sqlite cat = .ok s) :
    s.schemas = ["main"] ∧ ∀ t ∈ s.tables, t.schema = "main" := by
  unfold inspect_sqlite at h
  cases hm : cat.master_rows with
  | error e => rw [hm] at h; exact absurd h (by simp)
  | ok tv =>
    rw [hm] at h
    have h2 : (match inspect_sqlite_tables cat tv with
               | Except.error e => (Except.error e : Except String DatabaseSchema)
               | Except.ok tables =>
                   Except.ok { dialect := "sqlite", schemas := ["main"], tables := tables })
              = Except.ok s := h
    cases ht : inspect_sqlite_tables cat tv with
    | error e =>
      rw [ht] at h2
      exact absurd h2 (by simp)
    | ok tables =>
      rw [ht] at h2
      have h3 : Except.ok { dialect := "sqlite", schemas := ["main"], tables := tables }
                  = Except.ok s := h2
      injection h3 with h4
      subst h4
      exact ⟨rfl, inspect_sqlite_tables_main cat tv tables ht⟩

/-- A concrete one-table SQLite catalog for the C10 witness. -/
def c10_cat : SqliteCatalog :=
  { master_rows := .ok [("users", "table")],
    table_info := fun _ => .ok [],
    foreign_key_list := fun _ => .ok [] }

/-- The schema `inspect_sqlite` produces on `c10_cat`. -/
def c10_schema : DatabaseSchema :=
  { dialect := "sqlite", schemas := ["main"],
    tables := [{ schema := "main", name := "users", type_ := "table",
                 columns := [], foreign_keys := [] }] }

/-- Claim C10 witness: the theorem applied to a concrete catalog. -/
theorem c10_witness :
    c10_schema.schemas = ["main"] ∧ ∀ t ∈ c10_schema.tables, t.schema = "main" :=
  c10_sqlite_schemas_main c10_cat c10_schema rfl

/-- A Postgres catalog whose schema "public" holds two tables, for the
C2 code-bug evaluation. -/
def c2_pg_cat : PgCatalog :=
  { tables_rows := .ok [("public", "a", "BASE TABLE"), ("public", "b", "BASE TABLE")],
    columns_rows := fun _ _ => .ok [],
    fk_rows := fun _ _ => .ok [] }

/-- Claim C2 (code bug): on the Postgres path the schemas list is
collected once per table with no deduplication, so a schema with two
tables appears twice — contradicting both the spec and the code's own
`collect distinct schema names` comment (the MySQL path does dedup). -/
theorem c2_pg_duplicate_schemas :
    (inspect_postgres c2_pg_cat).map DatabaseSchema.schemas = .ok ["public", "public"]
    ∧ ¬ (["public", "public"] : List String).Nodup := by
  exact ⟨rfl, by decide⟩

/-! ## Claim C7: any catalog-query failure aborts the whole inspection -/

lemma inspect_sqlite_tables_ok_iff (cat : SqliteCatalog) (l : List (String × String)) :
    (∃ ts, inspect_sqlite_tables cat l = .ok ts)
      ↔ ∀ p ∈ l, (∃ c, cat.table_info p.1 = .ok c) ∧ (∃ f, cat.foreign_key_list p.1 = .ok f) := by
  induction l with
  | nil => simp [inspect_sqlite_tables]
  | cons p rest ih =>
    obtain ⟨name, ty⟩ := p
    constructor
    · rintro ⟨ts, h⟩
      simp only [inspect_sqlite_tables] at h
      cases h1 : cat.table_info name with
      | error e => rw [h1] at h; exact absurd h (by simp)
      | ok cols =>
        rw [h1] at h
        cases h2 : cat.foreign_key_list name with
        | error e => rw [h2] at h; exact absurd h (by simp)
        | ok fks =>
          rw [h2] at h
          cases h3 : inspect_sqlite_tables cat rest with
          | error e => rw [h3] at h; exact absurd h (by simp)
          | ok rest' =>
            intro q hq
            rcases List.mem_cons.mp hq with hh | hh
            · subst hh
              exact ⟨⟨cols, h1⟩, ⟨fks, h2⟩⟩
            · exact (ih.mp ⟨rest', h3⟩) q hh
    · intro hall
      obtain ⟨⟨cols, h1⟩, ⟨fks, h2⟩⟩ := hall (name, ty) (List.mem_cons_self _ _)
      obtain ⟨rest', h3⟩ := ih.mpr (fun q hq => hall q (List.mem_cons_of_mem _ hq))
      refine ⟨{ schema := "main", name := name, type_ := ty,
                columns := cols.map sqlite_col_def,
                foreign_keys := fks.map sqlite_fk_def } :: rest', ?_⟩
      simp only [inspect_sqlite_tables]
      rw [h1, h2, h3]

lemma inspect_sqlite_ok_iff (cat : SqliteCatalog) :
    (∃ s, inspect_sqlite cat = .ok s) ↔ sqlite_catalog_ok cat := by
  unfold inspect_sqlite sqlite_catalog_ok
  cases hm : cat.master_rows with
  | error e =>
    constructor
    · rintro ⟨s, h⟩
      exact absurd h (by simp)
    · rintro ⟨tv, htv, _⟩
      exact absurd htv (by simp)
  | ok tv =>
    constructor
    · rintro ⟨s, h⟩
      have h2 : (match inspect_sqlite_tables cat tv with
                 | Except.error e => (Except.error e : Except String DatabaseSchema)
                 | Except.ok tables =>
                     Except.ok { dialect := "sqlite", schemas := ["main"], tables := tables })
                = Except.ok s := h
      cases ht : inspect_sqlite_tables cat tv with
      | error e => rw [ht] at h2; exact absurd h2 (by simp)
      | ok tables =>
        exact ⟨tv, rfl, (inspect_sqlite_tables_ok_iff cat tv).mp ⟨tables, ht⟩⟩
    · rintro ⟨tv', htv, hall⟩
      injection htv with he
      rw [← he] at hall
      obtain ⟨ts, hts⟩ := (inspect_sqlite_tables_ok_iff cat tv).mpr hall
      refine ⟨{ dialect := "sqlite", schemas := ["main"], tables := ts }, ?_⟩
      show (match inspect_sqlite_tables cat tv with
            | Except.error e => (Except.error e : Except String DatabaseSchema)
            | Except.ok tables =>
                Except.ok { dialect := "sqlite", schemas := ["main"], tables := tables })
           = Except.ok { dialect := "sqlite", schemas := ["main"], tables := ts }
      rw [hts]

lemma inspect_postgres_tables_ok_iff (cat : PgCatalog) (l : List (String × String × String)) :
    (∃ ts, inspect_postgres_tables cat l = .ok ts)
      ↔ ∀ p ∈ l, (∃ c, cat.columns_rows p.1 p.2.1 = .ok c)
          ∧ (∃ f, cat.fk_rows p.1 p.2.1 = .ok f) := by
  induction l with
  | nil => simp [inspect_postgres_tables]
  | cons p rest ih =>
    obtain ⟨schema, name, ty⟩ := p
    constructor
    · rintro ⟨ts, h⟩
      simp only [inspect_postgres_tables] at h
      cases h1 : cat.columns_rows schema name with
      | error e => rw [h1] at h; exact absurd h (by simp)
      | ok cols =>
        rw [h1] at h
        cases h2 : cat.fk_rows schema name with
        | error e => rw [h2] at h; exact absurd h (by simp)
        | ok fks =>
          rw [h2] at h
          cases h3 : inspect_postgres_tables cat rest with
          | error e => rw [h3] at h; exact absurd h (by simp)
          | ok rest' =>
            intro q hq
            rcases List.mem_cons.mp hq with hh | hh
            · subst hh
              exact ⟨⟨cols, h1⟩, ⟨fks, h2⟩⟩
            · exact (ih.mp ⟨rest', h3⟩) q hh
    · intro hall
      obtain ⟨⟨cols, h1⟩, ⟨fks, h2⟩⟩ := hall (schema, name, ty) (List.mem_cons_self _ _)
      obtain ⟨rest', h3⟩ := ih.mpr (fun q hq => hall q (List.mem_cons_of_mem _ hq))
      refine ⟨{ schema := schema, name := name, type_ := ty,
                columns := cols.map pg_col_def,
                foreign_keys := fks.map pg_fk_def } :: rest', ?_⟩
      simp only [inspect_postgres_tables]
      rw [h1, h2, h3]

lemma inspect_postgres_ok_iff (cat : PgCatalog) :
    (∃ s, inspect_postgres cat = .ok s) ↔ pg_catalog_ok cat := by
  unfold inspect_postgres pg_catalog_ok
  cases hm : cat.tables_rows with
  | error e =>
    constructor
    · rintro ⟨s, h⟩
      exact absurd h (by simp)
    · rintro ⟨tv, htv, _⟩
      exact absurd htv (by simp)
  | ok tv =>
    constructor
    · rintro ⟨s, h⟩
      have h2 : (match inspect_postgres_tables cat tv with
                 | Except.error e => (Except.error e : Except String DatabaseSchema)
                 | Except.ok tables =>
                     Except.ok { dialect := "postgres",
                                 schemas := tables.map (fun t => t.schema),
                                 tables := tables })
                = Except.ok s := h
      cases ht : inspect_postgres_tables cat tv with
      | error e => rw [ht] at h2; exact absurd h2 (by simp)
      | ok tables =>
        exact ⟨tv, rfl, (inspect_postgres_tables_ok_iff cat tv).mp ⟨tables, ht⟩⟩
    · rintro ⟨tv', htv, hall⟩
      injection htv with he
      rw [← he] at hall
      obtain ⟨ts, hts⟩ := (inspect_postgres_tables_ok_iff cat tv).mpr hall
      refine ⟨{ dialect := "postgres", schemas := ts.map (fun t => t.schema),
                tables := ts }, ?_⟩
      show (match inspect_postgres_tables cat tv with
            | Except.error e => (Except.error e : Except String DatabaseSchema)
            | Except.ok tables =>
                Except.ok { dialect := "postgres",
                            schemas := tables.map (fun t => t.schema),
                            tables := tables })
           = Except.ok { dialect := "postgres", schemas := ts.map (fun t => t.schema),
                         tables := ts }
      rw [hts]

lemma inspect_mysql_tables_ok_iff (cat : MySqlCatalog) (l : List (String × String × String)) :
    (∃ ts, inspect_mysql_tables cat l = .ok ts)
      ↔ ∀ p ∈ l, (∃ c, cat.columns_rows p.1 p.2.1 = .ok c)
          ∧ (∃ f, cat.fk_rows p.1 p.2.1 = .ok f) := by
  induction l with
  | nil => simp [inspect_mysql_tables]
  | cons p rest ih =>
    obtain ⟨schema, name, ty⟩ := p
    constructor
    · rintro ⟨ts, h⟩
      simp only [inspect_mysql_tables] at h
      cases h1 : cat.columns_rows schema name with
      | error e => rw [h1] at h; exact absurd h (by simp)
      | ok cols =>
        rw [h1] at h
        cases h2 : cat.fk_rows schema name with
        | error e => rw [h2] at h; exact absurd h (by simp)
        | ok fks =>
          rw [h2] at h
          cases h3 : inspect_mysql_tables cat rest with
          | error e => rw [h3] at h; exact absurd h (by simp)
          | ok rest' =>
            intro q hq
            rcases List.mem_cons.mp hq with hh | hh
            · subst hh
              exact ⟨⟨cols, h1⟩, ⟨fks, h2⟩⟩
            · exact (ih.mp ⟨rest', h3⟩) q hh
    · intro hall
      obtain ⟨⟨cols, h1⟩, ⟨fks, h2⟩⟩ := hall (schema, name, ty) (List.mem_cons_self _ _)
      obtain ⟨rest', h3⟩ := ih.mpr (fun q hq => hall q (List.mem_cons_of_mem _ hq))
      refine ⟨{ schema := schema, name := name, type_ := ty,
                columns := cols.map mysql_col_def,
                foreign_keys := fks.map mysql_fk_def } :: rest', ?_⟩
      simp only [inspect_mysql_tables]
      rw [h1, h2, h3]

lemma inspect_mysql_ok_iff (cat : MySqlCatalog) :
    (∃ s, inspect_mysql cat = .ok s) ↔ mysql_catalog_ok cat := by
  unfold inspect_mysql mysql_catalog_ok
  cases hm : cat.tables_rows with
  | error e =>
    constructor
    · rintro ⟨s, h⟩
      exact absurd h (by simp)
    · rintro ⟨tv, htv, _⟩
      exact absurd htv (by simp)
  | ok tv =>
    constructor
    · rintro ⟨s, h⟩
      have h2 : (match inspect_mysql_tables cat tv with
                 | Except.error e => (Except.error e : Except String DatabaseSchema)
                 | Except.ok tables =>
                     Except.ok { dialect := "mysql",
                                 schemas := dedup_adjacent
                                   (sort_strings (tables.map (fun t => t.schema))),
                                 tables := tables })
                = Except.ok s := h
      cases ht : inspect_mysql_tables cat tv with
      | error e => rw [ht] at h2; exact absurd h2 (by simp)
      | ok tables =>
        exact ⟨tv, rfl, (inspect_mysql_tables_ok_iff cat tv).mp ⟨tables, ht⟩⟩
    · rintro ⟨tv', htv, hall⟩
      injection htv with he
      rw [← he] at hall
      obtain ⟨ts, hts⟩ := (inspect_mysql_tables_ok_iff cat tv).mpr hall
      refine ⟨{ dialect := "mysql",
                schemas := dedup_adjacent (sort_strings (ts.map (fun t => t.schema))),
                tables := ts }, ?_⟩
      show (match inspect_mysql_tables cat tv with
            | Except.error e => (Except.error e : Except String DatabaseSchema)
            | Except.ok tables =>
                Except.ok { dialect := "mysql",
                            schemas := dedup_adjacent
                              (sort_strings (tables.map (fun t => t.schema))),
                            tables := tables })
           = Except.ok { dialect := "mysql",
                         schemas := dedup_adjacent (sort_strings (ts.map (fun t => t.schema))),
                         tables := ts }
      rw [hts]

/-- Claim C7: on every dialect path, `inspect_schema` returns a schema
exactly when every catalog query it issues (the table listing and the
per-table column and foreign-key queries) succeeds; any single failure
yields an error and no partial `DatabaseSchema`. -/
theorem c7_no_partial_schema (pool : DynPool) :
    (∃ s, inspect_schema pool = .ok s) ↔ catalog_queries_ok pool := by
  cases pool with
  | sqlite cat => exact inspect_sqlite_ok_iff cat
  | postgres cat => exact inspect_postgres_ok_iff cat
  | mysql cat => exact inspect_mysql_ok_iff cat

/-! ## Claim C4: unknown filter operators fall back to equality -/

lemma not_mem_recognized (op : String) (h : op ∉ recognized_ops) :
    op ≠ "=" ∧ op ≠ "!=" ∧ op ≠ ">" ∧ op ≠ ">=" ∧ op ≠ "<" ∧ op ≠ "<=" ∧
    op ≠ "like" ∧ op ≠ "not_like" ∧ op ≠ "is_null" ∧ op ≠ "is_not_null" ∧
    op ≠ "in" ∧ op ≠ "not_in" := by
  simp only [recognized_ops, List.mem_cons, List.not_mem_nil, or_false, not_or] at h
  exact h

lemma select_filter_expr_unknown (table : String) (c : FilterCond)
    (h : c.op ∉ recognized_ops) :
    select_filter_expr table c = select_filter_expr table ⟨c.column, "=", c.value⟩ := by
  obtain ⟨h1, h2, h3, h4, h5, h6, h7, h8, h9, h10, h11, h12⟩ := not_mem_recognized c.op h
  simp [select_filter_expr, h1, h2, h3, h4, h5, h6, h7, h8, h9, h10, h11, h12]

lemma update_filter_expr_unknown (table : String) (c : FilterCond)
    (h : c.op ∉ recognized_ops) :
    update_filter_expr table c = update_filter_expr table ⟨c.column, "=", c.value⟩ := by
  obtain ⟨h1, h2, _⟩ := not_mem_recognized c.op h
  simp [update_filter_expr, h1, h2]

/-- Claim C4: in every builder and dialect, a filter whose operator is
not one of the recognized operators produces exactly the same SQL text
and parameter list as the same filter with operator `=`. -/
theorem c4_unknown_op_falls_back_to_eq (op : String) (hop : op ∉ recognized_ops)
    (d : Dialect) (table col : String) (v : Json) (cols : List String)
    (sortv : Option (String × Bool)) (lim off : Option Nat)
    (pre post : List FilterCond) (vals : List (String × Json)) :
    build_select { table := table, columns := cols,
                   filters := pre ++ { column := col, op := op, value := v } :: post,
                   sort := sortv, limit := lim, offset := off } d
      = build_select { table := table, columns := cols,
                       filters := pre ++ { column := col, op := "=", value := v } :: post,
                       sort := sortv, limit := lim, offset := off } d
    ∧ build_update { table := table, values := vals,
                     filters := pre ++ { column := col, op := op, value := v } :: post } d
      = build_update { table := table, values := vals,
                       filters := pre ++ { column := col, op := "=", value := v } :: post } d
    ∧ build_delete { table := table,
                     filters := pre ++ { column := col, op := op, value := v } :: post } d
      = build_delete { table := table,
                       filters := pre ++ { column := col, op := "=", value := v } :: post } d := by
  have hs : select_filter_expr table { column := col, op := op, value := v }
      = select_filter_expr table { column := col, op := "=", value := v } :=
    select_filter_expr_unknown table _ hop
  have hu : update_filter_expr table { column := col, op := op, value := v }
      = update_filter_expr table { column := col, op := "=", value := v } :=
    update_filter_expr_unknown table _ hop
  refine ⟨?_, ?_, ?_⟩
  · simp only [build_select, build_select_tokens, List.map_append, List.map_cons, hs]
  · simp only [build_update, build_update_tokens, List.map_append, List.map_cons, hu]
  · simp only [build_delete, build_delete_tokens, List.map_append, List.map_cons, hu]

/-- Claim C4 witness: `op = "bogus"` is unrecognized, and `build_select`
with it equals `build_select` with `op = "="`. -/
theorem c4_witness :
    "bogus" ∉ recognized_ops
    ∧ build_select { table := "users", columns := ["id"],
                     filters := [{ column := "active", op := "bogus", value := Json.bool true }],
                     sort := none, limit := none, offset := none } Dialect.Sqlite
      = build_select { table := "users", columns := ["id"],
                       filters := [{ column := "active", op := "=", value := Json.bool true }],
                       sort := none, limit := none, offset := none } Dialect.Sqlite := by
  refine ⟨by decide, ?_⟩
  exact (c4_unknown_op_falls_back_to_eq "bogus" (by decide) Dialect.Sqlite "users" "active"
    (Json.bool true) ["id"] none none none [] [] []).1

/-! ## Claim C5: placeholder and parameter accounting of build_select -/

/-- Number of elements `json_array_to_simples` produces: the array
length, or one for a non-array value. -/
def json_array_len : Json → Nat
  | .arr xs => xs.length
  | _ => 1

/-- The number of bind parameters (hence placeholders) `build_select`
emits for one filter: none for is_null/is_not_null, one per array
element for in/not_in (one for a non-array value), and exactly one for
every other operator — like/not_like and unknown operators included, and
regardless of the value, JSON null included. -/
def filter_placeholder_count (c : FilterCond) : Nat :=
  if c.op = "=" then 1
  else if c.op = "!=" then 1
  else if c.op = ">" then 1
  else if c.op = ">=" then 1
  else if c.op = "<" then 1
  else if c.op = "<=" then 1
  else if c.op = "like" then 1
  else if c.op = "not_like" then 1
  else if c.op = "is_null" then 0
  else if c.op = "is_not_null" then 0
  else if c.op = "in" then json_array_len c.value
  else if c.op = "not_in" then json_array_len c.value
  else 1

lemma length_flatten_params (l : List (List SqlParam)) :
    l.flatten.length = (l.map List.length).sum := by
  induction l with
  | nil => rfl
  | cons x rest ih => simp [ih]

lemma ph_count_append (a b : List SqlTok) :
    ph_count (a ++ b) = ph_count a + ph_count b := by
  induction a with
  | nil => simp [ph_count]
  | cons t rest ih =>
    cases t <;> simp [ph_count, ih, Nat.add_assoc]

lemma ph_count_append_raw (a b : List SqlTok) :
    ph_count (List.append a b) = ph_count a + ph_count b :=
  ph_count_append a b

lemma length_append_raw (a b : List SqlParam) :
    (List.append a b).length = a.length + b.length :=
  List.length_append a b

lemma ph_count_ph_join (n : Nat) : ph_count (ph_join n) = n := by
  induction n with
  | zero => rfl
  | succ m ih =>
    cases m with
    | zero => rfl
    | succ k =>
      simp [ph_join, ph_count] at ih ⊢
      omega

lemma ph_count_tok_join (sep : String) (ls : List (List SqlTok)) :
    ph_count (tok_join sep ls) = (ls.map ph_count).sum := by
  induction ls with
  | nil => rfl
  | cons x rest ih =>
    cases rest with
    | nil => simp [tok_join, ph_count]
    | cons y rest' =>
      simp [tok_join, ph_count_append, ph_count, ih]
      try omega

lemma ph_count_cond_tokens (d : Dialect) (e : CondExpr) :
    ph_count (cond_tokens d e) = (cond_params e).length := by
  cases e with
  | binary t c op v => rfl
  | isNull t c => rfl
  | isNotNull t c => rfl
  | isIn t c vs =>
    cases vs with
    | nil => rfl
    | cons v vs' =>
      simp [cond_tokens, cond_params, ph_count, ph_count_append, ph_count_ph_join]
  | isNotIn t c vs =>
    cases vs with
    | nil => rfl
    | cons v vs' =>
      simp [cond_tokens, cond_params, ph_count, ph_count_append, ph_count_ph_join]

lemma json_array_to_simples_length (v : Json) :
    (json_array_to_simples v).length = json_array_len v := by
  cases v <;> simp [json_array_to_simples, json_array_len]

set_option maxHeartbeats 1000000 in
lemma select_filter_params_length (t : String) (c : FilterCond) :
    (cond_params (select_filter_expr t c)).length = filter_placeholder_count c := by
  by_cases h1 : c.op = "="
  · simp [select_filter_expr, filter_placeholder_count, cond_params, h1]
  by_cases h2 : c.op = "!="
  · simp [select_filter_expr, filter_placeholder_count, cond_params, h1, h2]
  by_cases h3 : c.op = ">"
  · simp [select_filter_expr, filter_placeholder_count, cond_params, h1, h2, h3]
  by_cases h4 : c.op = ">="
  · simp [select_filter_expr, filter_placeholder_count, cond_params, h1, h2, h3, h4]
  by_cases h5 : c.op = "<"
  · simp [select_filter_expr, filter_placeholder_count, cond_params, h1, h2, h3, h4, h5]
  by_cases h6 : c.op = "<="
  · simp [select_filter_expr, filter_placeholder_count, cond_params, h1, h2, h3, h4, h5, h6]
  by_cases h7 : c.op = "like"
  · simp [select_filter_expr, filter_placeholder_count, cond_params, h1, h2, h3, h4, h5, h6,
      h7]
  by_cases h8 : c.op = "not_like"
  · simp [select_filter_expr, filter_placeholder_count, cond_params, h1, h2, h3, h4, h5, h6,
      h7, h8]
  by_cases h9 : c.op = "is_null"
  · simp [select_filter_expr, filter_placeholder_count, cond_params, h1, h2, h3, h4, h5, h6,
      h7, h8, h9]
  by_cases h10 : c.op = "is_not_null"
  · simp [select_filter_expr, filter_placeholder_count, cond_params, h1, h2, h3, h4, h5, h6,
      h7, h8, h9, h10]
  by_cases h11 : c.op = "in"
  · simp [select_filter_expr, filter_placeholder_count, cond_params, h1, h2, h3, h4, h5, h6,
      h7, h8, h9, h10, h11, json_array_to_simples_length]
  by_cases h12 : c.op = "not_in"
  · simp [select_filter_expr, filter_placeholder_count, cond_params, h1, h2, h3, h4, h5, h6,
      h7, h8, h9, h10, h11, h12, json_array_to_simples_length]
  simp [select_filter_expr, filter_placeholder_count, cond_params, h1, h2, h3, h4, h5, h6,
    h7, h8, h9, h10, h11, h12]

lemma ph_sum_filters (d : Dialect) (t : String) (fs : List FilterCond) :
    (((fs.map (select_filter_expr t)).map (cond_tokens d)).map ph_count).sum
      = (fs.map filter_placeholder_count).sum := by
  induction fs with
  | nil => rfl
  | cons c rest ih =>
    simp only [List.map_cons, List.sum_cons]
    rw [ph_count_cond_tokens, select_filter_params_length, ih]

lemma ph_count_where (d : Dialect) (t : String) (fs : List FilterCond) :
    ph_count
      (if (fs.map (select_filter_expr t)).isEmpty then ([] : List SqlTok)
       else SqlTok.lit " WHERE "
          :: tok_join " AND " ((fs.map (select_filter_expr t)).map (cond_tokens d)))
      = (fs.map filter_placeholder_count).sum := by
  cases fs with
  | nil => rfl
  | cons c rest =>
    show ph_count (SqlTok.lit " WHERE "
        :: tok_join " AND " (((c :: rest).map (select_filter_expr t)).map (cond_tokens d)))
      = ((c :: rest).map filter_placeholder_count).sum
    simp only [ph_count, ph_count_tok_join]
    exact ph_sum_filters d t (c :: rest)

lemma params_where_length (t : String) (fs : List FilterCond) :
    ((fs.map (select_filter_expr t)).map cond_params).flatten.length
      = (fs.map filter_placeholder_count).sum := by
  induction fs with
  | nil => rfl
  | cons c rest ih =>
    simp only [List.map_cons, List.flatten_cons, List.length_append, List.sum_cons]
    rw [select_filter_params_length, ih]

/-- Claim C5 (amended): for every SelectSpec and dialect, the parameter
list length of `build_select` equals the number of placeholders in the
SQL, and that number is the sum over filters of the per-filter
accounting (`filter_placeholder_count`: one per filter value occurrence
— null included — none for is_null/is_not_null, one per array element
for in/not_in) plus one placeholder for LIMIT when present and one for
OFFSET when present. -/
theorem c5_placeholder_accounting (s : SelectSpec) (d : Dialect) :
    ph_count (build_select_tokens s d).1 = (build_select_tokens s d).2.length
    ∧ ph_count (build_select_tokens s d).1
        = (s.filters.map filter_placeholder_count).sum
          + (if s.limit.isSome then 1 else 0)
          + (if s.offset.isSome then 1 else 0) := by
  obtain ⟨t, cols, fs, sortv, lim, off⟩ := s
  have hA : ph_count (build_select_tokens ⟨t, cols, fs, sortv, lim, off⟩ d).1
      = (fs.map filter_placeholder_count).sum
        + (if lim.isSome then 1 else 0) + (if off.isSome then 1 else 0) := by
    simp only [build_select_tokens]
    rcases sortv with _ | ⟨sc, sa⟩ <;> rcases lim with _ | l <;> rcases off with _ | o
    all_goals simp only [ph_count, ph_count_append, ph_count_append_raw]
    all_goals rw [ph_count_where]
    all_goals simp
  have hB : (build_select_tokens ⟨t, cols, fs, sortv, lim, off⟩ d).2.length
      = (fs.map filter_placeholder_count).sum
        + (if lim.isSome then 1 else 0) + (if off.isSome then 1 else 0) := by
    simp only [build_select_tokens]
    rcases lim with _ | l <;> rcases off with _ | o
    all_goals simp only [List.length_append, length_append_raw]
    all_goals rw [params_where_length]
    all_goals simp
  exact ⟨hA.trans hB.symm, hA⟩

/-- Definition following the claim's own words, for refutation: one
placeholder per non-null value referenced in filters, none for
is_null/is_not_null, one per array element for in/not_in, and no
placeholder from anything outside the filters. -/
def claim_value_count (c : FilterCond) : Nat :=
  if c.op = "is_null" ∨ c.op = "is_not_null" then 0
  else if c.op = "in" ∨ c.op = "not_in" then json_array_len c.value
  else match c.value with
       | .null => 0
       | _ => 1

/-- The claim's total placeholder expectation for a SelectSpec. -/
def claim_select_placeholder_count (s : SelectSpec) : Nat :=
  (s.filters.map claim_value_count).sum

/-- A SelectSpec with one null-valued equality filter and a LIMIT: the
claim's accounting expects zero placeholders. -/
def c5_cex_spec : SelectSpec :=
  { table := "t", columns := ["a"],
    filters := [{ column := "a", op := "=", value := Json.null }],
    sort := none, limit := some 10, offset := none }

/-- Claim C5 counterexample: `build_select` emits 2 placeholders here
(the null equality bind and the LIMIT bind) while the claim's
per-non-null-filter-value accounting predicts 0. -/
theorem c5_counterexample :
    ph_count (build_select_tokens c5_cex_spec Dialect.Sqlite).1 = 2
    ∧ claim_select_placeholder_count c5_cex_spec = 0
    ∧ ph_count (build_select_tokens c5_cex_spec Dialect.Sqlite).1
        ≠ claim_select_placeholder_count c5_cex_spec := by
  refine ⟨rfl, rfl, by decide⟩

end InklessDb
